import Mathlib

/-!
Verification development for the pgsmod subtitle-cropping tool.

The embedding follows src/main.rs. Pixel coordinates and sizes are unsigned
16-bit integers in the source; they are modelled as Nat together with checked
arithmetic helpers that return none exactly where the Rust arithmetic would
leave the u16 range (an arithmetic panic under the checked semantics the
design document treats as undefined behaviour).
-/

/-- Largest value of the unsigned 16-bit integer type used for all pixel
coordinates and sizes in the source. -/
def u16Max : Nat := 65535

/-- Checked unsigned 16-bit addition: an overflowing addition has no defined
result and is modelled as none. -/
def addU16 (a b : Nat) : Option Nat :=
  if a + b ≤ u16Max then some (a + b) else none

/-- Checked unsigned 16-bit subtraction: an underflowing subtraction has no
defined result and is modelled as none. -/
def subU16 (a b : Nat) : Option Nat :=
  if b ≤ a then some (a - b) else none

/-- Checked unsigned 16-bit multiplication: an overflowing product has no
defined result and is modelled as none. -/
def mulU16 (a b : Nat) : Option Nat :=
  if a * b ≤ u16Max then some (a * b) else none

/-- Embedding of the remap function cropped_object_offset
(src/main.rs lines 274-297).  The result pairs the returned offset with a
flag recording whether the infeasibility warning diagnostic was emitted; a
none result models a u16 arithmetic panic on the way to a return. -/
def cropped_object_offset (screen_full_size screen_crop_size object_size
    object_offset margin : Nat) : Option (Nat × Bool) :=
  match mulU16 2 margin with
  | none => none
  | some m2 =>
    match addU16 object_size m2 with
    | none => none
    | some fit =>
      if screen_crop_size < fit then
        some (0, true)
      else
        match subU16 screen_full_size screen_crop_size with
        | none => none
        | some diff =>
          match subU16 object_offset (diff / 2) with
          | none => none
          | some new_offset =>
            if new_offset < margin then
              some (margin, false)
            else
              match addU16 new_offset object_size with
              | none => none
              | some s1 =>
                match addU16 s1 margin with
                | none => none
                | some s2 =>
                  if screen_crop_size < s2 then
                    match subU16 screen_crop_size object_size with
                    | none => none
                    | some t1 =>
                      match subU16 t1 margin with
                      | none => none
                      | some t2 => some (t2, false)
                  else
                    some (new_offset, false)

-- sanity checks against the worked scenarios of the design document
example : cropped_object_offset 1080 800 100 500 30 = some (360, false) := by decide
example : cropped_object_offset 1080 800 100 970 30 = some (670, false) := by decide
example : cropped_object_offset 1080 150 100 500 30 = some (0, true) := by decide
example : cropped_object_offset 1080 800 100 100 30 = none := by decide
example : cropped_object_offset 0 100 0 0 32768 = none := by decide

/-- Helper: a checked addition below the u16 bound succeeds. -/
theorem addU16_some {a b : Nat} (h : a + b ≤ 65535) : addU16 a b = some (a + b) := by
  unfold addU16 u16Max
  exact if_pos h

/-- Helper: a checked multiplication below the u16 bound succeeds. -/
theorem mulU16_some {a b : Nat} (h : a * b ≤ 65535) : mulU16 a b = some (a * b) := by
  unfold mulU16 u16Max
  exact if_pos h

/-- Helper: a checked subtraction with no underflow succeeds. -/
theorem subU16_some {a b : Nat} (h : b ≤ a) : subU16 a b = some (a - b) := by
  unfold subU16
  exact if_pos h

/-- Helper: a checked subtraction underflows to none. -/
theorem subU16_none {a b : Nat} (h : a < b) : subU16 a b = none := by
  unfold subU16
  rw [if_neg]
  omega

/-- Helper: inversion for a successful checked addition. -/
theorem addU16_some_inv {a b c : Nat} (h : addU16 a b = some c) :
    c = a + b ∧ a + b ≤ 65535 := by
  unfold addU16 u16Max at h
  split at h <;> simp_all

/-- Helper: inversion for a successful checked multiplication. -/
theorem mulU16_some_inv {a b c : Nat} (h : mulU16 a b = some c) :
    c = a * b ∧ a * b ≤ 65535 := by
  unfold mulU16 u16Max at h
  split at h <;> simp_all

/-- Helper: inversion for a successful checked subtraction. -/
theorem subU16_some_inv {a b c : Nat} (h : subU16 a b = some c) :
    c = a - b ∧ b ≤ a := by
  unfold subU16 at h
  split at h <;> simp_all

/-- C1: for every call to cropped_object_offset with feasible inputs
(object_size + 2 * margin ≤ screen_crop_size), whenever the call returns an
offset at all, that offset lies in the inclusive interval
[margin, screen_crop_size − object_size − margin]. -/
theorem C1_clamp_bound (screen_full_size screen_crop_size object_size
    object_offset margin r : Nat) (w : Bool)
    (hfeas : object_size + 2 * margin ≤ screen_crop_size)
    (hres : cropped_object_offset screen_full_size screen_crop_size object_size
      object_offset margin = some (r, w)) :
    margin ≤ r ∧ r ≤ screen_crop_size - object_size - margin := by
  unfold cropped_object_offset at hres
  cases h1 : mulU16 2 margin with
  | none => rw [h1] at hres; simp at hres
  | some m2 =>
  simp only [h1] at hres
  obtain ⟨hm2, _⟩ := mulU16_some_inv h1
  cases h2 : addU16 object_size m2 with
  | none => rw [h2] at hres; simp at hres
  | some fit =>
  simp only [h2] at hres
  obtain ⟨hfit, _⟩ := addU16_some_inv h2
  rw [if_neg (by omega)] at hres
  cases h4 : subU16 screen_full_size screen_crop_size with
  | none => rw [h4] at hres; simp at hres
  | some diff =>
  simp only [h4] at hres
  cases h5 : subU16 object_offset (diff / 2) with
  | none => rw [h5] at hres; simp at hres
  | some new_offset =>
  simp only [h5] at hres
  by_cases h6 : new_offset < margin
  · rw [if_pos h6] at hres
    simp at hres
    omega
  · rw [if_neg h6] at hres
    cases h7 : addU16 new_offset object_size with
    | none => rw [h7] at hres; simp at hres
    | some s1 =>
    simp only [h7] at hres
    obtain ⟨hs1, _⟩ := addU16_some_inv h7
    cases h8 : addU16 s1 margin with
    | none => rw [h8] at hres; simp at hres
    | some s2 =>
    simp only [h8] at hres
    obtain ⟨hs2, _⟩ := addU16_some_inv h8
    by_cases h9 : screen_crop_size < s2
    · rw [if_pos h9] at hres
      cases h10 : subU16 screen_crop_size object_size with
      | none => rw [h10] at hres; simp at hres
      | some t1 =>
      simp only [h10] at hres
      obtain ⟨ht1, ht1le⟩ := subU16_some_inv h10
      cases h11 : subU16 t1 margin with
      | none => rw [h11] at hres; simp at hres
      | some t2 =>
      simp only [h11] at hres
      obtain ⟨ht2, ht2le⟩ := subU16_some_inv h11
      simp at hres
      omega
    · rw [if_neg h9] at hres
      simp at hres
      omega

/-- Witness for C1_clamp_bound at the first worked scenario of the design
document: full 1080, crop 800, size 100, offset 500, margin 30. -/
theorem C1_clamp_bound_witness :
    100 + 2 * 30 ≤ 800 ∧ (30 ≤ 360 ∧ 360 ≤ 800 - 100 - 30) :=
  ⟨by decide, C1_clamp_bound 1080 800 100 500 30 360 false (by decide) (by decide)⟩

/-- C3: on a feasible call (object_size + 2 * margin ≤ screen_crop_size, with
screen_crop_size a u16 value) in which the centered-crop shift
(screen_full_size − screen_crop_size) / 2 exceeds object_offset, the unsigned
subtraction object_offset − shift in step 2 underflows and the call produces
no defined result: the overflow branch of the embedding is reachable and the
function is not total over u16 coordinates. -/
theorem C3_shift_underflow (screen_full_size screen_crop_size object_size
    object_offset margin : Nat)
    (hc : screen_crop_size ≤ 65535)
    (hfeas : object_size + 2 * margin ≤ screen_crop_size)
    (ho : object_offset < (screen_full_size - screen_crop_size) / 2) :
    cropped_object_offset screen_full_size screen_crop_size object_size
      object_offset margin = none := by
  have hcf : screen_crop_size ≤ screen_full_size := by omega
  have e1 : mulU16 2 margin = some (2 * margin) := mulU16_some (by omega)
  have e2 : addU16 object_size (2 * margin) = some (object_size + 2 * margin) :=
    addU16_some (by omega)
  have e3 : subU16 screen_full_size screen_crop_size
      = some (screen_full_size - screen_crop_size) := subU16_some hcf
  have e4 : subU16 object_offset ((screen_full_size - screen_crop_size) / 2)
      = none := subU16_none ho
  unfold cropped_object_offset
  simp only [e1, e2, e3, e4]
  rw [if_neg (by omega)]

/-- Witness for C3_shift_underflow: full 1080, crop 800 gives shift 140, and
offset 100 sits inside the cropped-away band, so the call underflows. -/
theorem C3_shift_underflow_witness :
    800 ≤ 65535 ∧ 100 + 2 * 30 ≤ 800 ∧ 100 < (1080 - 800) / 2 ∧
    cropped_object_offset 1080 800 100 100 30 = none :=
  ⟨by decide, by decide, by decide,
    C3_shift_underflow 1080 800 100 100 30 (by decide) (by decide) (by decide)⟩

/-- C5 counterexample: at screen_full_size 0, screen_crop_size 0,
object_size 1, object_offset 0, margin 32768 the input is infeasible
(1 + 2·32768 > 0), yet the call does not return 0 with a diagnostic: the
u16 computation 2 * margin overflows and the call has no defined result. -/
theorem C5_infeasible_cex :
    1 + 2 * 32768 > 0 ∧
    cropped_object_offset 0 0 1 0 32768 ≠ some (0, true) := by decide

/-- C5 (amended): whenever object_size + 2 * margin > screen_crop_size and
the feasibility computation itself stays within u16 range
(object_size + 2 * margin ≤ 65535), cropped_object_offset returns 0 together
with the infeasibility diagnostic, and the call is non-fatal. -/
theorem C5_infeasible_returns_zero (screen_full_size screen_crop_size
    object_size object_offset margin : Nat)
    (hinf : object_size + 2 * margin > screen_crop_size)
    (hrange : object_size + 2 * margin ≤ 65535) :
    cropped_object_offset screen_full_size screen_crop_size object_size
      object_offset margin = some (0, true) := by
  have e1 : mulU16 2 margin = some (2 * margin) := mulU16_some (by omega)
  have e2 : addU16 object_size (2 * margin) = some (object_size + 2 * margin) :=
    addU16_some (by omega)
  unfold cropped_object_offset
  simp only [e1, e2]
  rw [if_pos (by omega)]

/-- Witness for C5_infeasible_returns_zero at the third worked scenario of
the design document: crop 150, size 100, margin 30. -/
theorem C5_infeasible_returns_zero_witness :
    100 + 2 * 30 > 150 ∧ 100 + 2 * 30 ≤ 65535 ∧
    cropped_object_offset 1080 150 100 500 30 = some (0, true) :=
  ⟨by decide, by decide,
    C5_infeasible_returns_zero 1080 150 100 500 30 (by decide) (by decide)⟩

/-- C10: the feasibility test of cropped_object_offset evaluates
object_size + 2 * margin in u16 arithmetic, which is not total: at
object_size 0, margin 32768, screen_crop_size 100 the exact sum 65536
exceeds both 65535 and the crop size, so the input is infeasible in exact
arithmetic, yet the call does not take the return-0 branch — the u16
computation of the feasibility test has no defined result. -/
theorem C10_feasibility_test_u16 :
    0 + 2 * 32768 > 65535 ∧ 0 + 2 * 32768 > 100 ∧
    cropped_object_offset 0 100 0 0 32768 = none := by decide

/-- Crop rectangle optionally attached to a composition object (spec §3). -/
structure CropRect where
  x : Nat
  y : Nat
  width : Nat
  height : Nat
deriving DecidableEq

/-- Composition object entry of a PresentationComposition (spec §3). -/
structure CompObj where
  obj_id : Nat
  win_id : Nat
  x : Nat
  y : Nat
  crop : Option CropRect
deriving DecidableEq

/-- PresentationComposition segment body (spec §3). -/
structure PresComp where
  comp_num : Nat
  width : Nat
  height : Nat
  state : Nat
  comp_objs : List CompObj
deriving DecidableEq

/-- Window record of a WindowDefinition segment body (spec §3). -/
structure WinDef where
  id : Nat
  x : Nat
  y : Nat
  width : Nat
  height : Nat
deriving DecidableEq

/-- ObjectDefinition segment body (spec §3). -/
structure ObjDef where
  id : Nat
  width : Nat
  height : Nat
  data : List Nat
deriving DecidableEq

/-- Tagged union of the five segment body variants (spec §3). -/
inductive SegBody where
  | presComp (pcs : PresComp)
  | winDef (wds : List WinDef)
  | objDef (ods : ObjDef)
  | palDef (data : List Nat)
  | endOfDisplaySet
deriving DecidableEq

/-- One container segment: two opaque 32-bit timestamps and a body. -/
structure Seg where
  pts : Nat
  dts : Nat
  body : SegBody
deriving DecidableEq

/-- Errors of the segment reader, following the error taxonomy of spec §7:
eof is a clean end-of-stream at a segment boundary, unexpectedEof is an
end-of-input in the middle of a segment, and the remaining constructors are
bitstream errors. -/
inductive SegReadError where
  | eof
  | unexpectedEof
  | badMagic
  | unknownTypeCode
  | bodyError
deriving DecidableEq

/-- Reads one byte from the stream. -/
def rdByte : List Nat → Except SegReadError (Nat × List Nat)
  | [] => .error .unexpectedEof
  | b :: rest => .ok (b, rest)

/-- Reads one big-endian 16-bit value from the stream. -/
def rdU16 : List Nat → Except SegReadError (Nat × List Nat)
  | b0 :: b1 :: rest => .ok (b0 * 256 + b1, rest)
  | _ => .error .unexpectedEof

/-- Reads one big-endian 32-bit value from the stream. -/
def rdU32 : List Nat → Except SegReadError (Nat × List Nat)
  | b0 :: b1 :: b2 :: b3 :: rest =>
    .ok (((b0 * 256 + b1) * 256 + b2) * 256 + b3, rest)
  | _ => .error .unexpectedEof

/-- Reads exactly n raw bytes from the stream. -/
def rdBytes : Nat → List Nat → Except SegReadError (List Nat × List Nat)
  | 0, bs => .ok ([], bs)
  | _ + 1, [] => .error .unexpectedEof
  | n + 1, b :: bs =>
    match rdBytes n bs with
    | .error e => .error e
    | .ok (xs, rest) => .ok (b :: xs, rest)

/-- Writes one byte (u8 truncation). -/
def wrByte (v : Nat) : List Nat := [v % 256]

/-- Writes one big-endian 16-bit value. -/
def wrU16 (v : Nat) : List Nat := [v / 256 % 256, v % 256]

/-- Writes one big-endian 32-bit value. -/
def wrU32 (v : Nat) : List Nat :=
  [v / 16777216 % 256, v / 65536 % 256, v / 256 % 256, v % 256]

/-- Modelled from the spec: the composition-object record layout of the
pgs::read module, which is not part of src/ (spec §6: object id, window id,
crop flag, x, y, then the optional crop rectangle). -/
def decodeCompObj (bs : List Nat) : Except SegReadError (CompObj × List Nat) :=
  match rdU16 bs with
  | .error e => .error e
  | .ok (oid, r1) =>
  match rdByte r1 with
  | .error e => .error e
  | .ok (wid, r2) =>
  match rdByte r2 with
  | .error e => .error e
  | .ok (flag, r3) =>
  match rdU16 r3 with
  | .error e => .error e
  | .ok (x, r4) =>
  match rdU16 r4 with
  | .error e => .error e
  | .ok (y, r5) =>
  if flag = 64 then
    match rdU16 r5 with
    | .error e => .error e
    | .ok (cx, r6) =>
    match rdU16 r6 with
    | .error e => .error e
    | .ok (cy, r7) =>
    match rdU16 r7 with
    | .error e => .error e
    | .ok (cw, r8) =>
    match rdU16 r8 with
    | .error e => .error e
    | .ok (ch, r9) =>
      .ok ({ obj_id := oid, win_id := wid, x := x, y := y,
             crop := some { x := cx, y := cy, width := cw, height := ch } }, r9)
  else if flag = 0 then
    .ok ({ obj_id := oid, win_id := wid, x := x, y := y, crop := none }, r5)
  else
    .error .bodyError

/-- Reads a counted list of composition-object records. -/
def decodeCompObjs : Nat → List Nat → Except SegReadError (List CompObj × List Nat)
  | 0, bs => .ok ([], bs)
  | n + 1, bs =>
    match decodeCompObj bs with
    | .error e => .error e
    | .ok (co, r) =>
    match decodeCompObjs n r with
    | .error e => .error e
    | .ok (objs, rest) => .ok (co :: objs, rest)

/-- Modelled from the spec: the window record layout of the pgs::read
module, which is not part of src/ (spec §6: id, x, y, width, height). -/
def decodeWinDef (bs : List Nat) : Except SegReadError (WinDef × List Nat) :=
  match rdByte bs with
  | .error e => .error e
  | .ok (wid, r1) =>
  match rdU16 r1 with
  | .error e => .error e
  | .ok (x, r2) =>
  match rdU16 r2 with
  | .error e => .error e
  | .ok (y, r3) =>
  match rdU16 r3 with
  | .error e => .error e
  | .ok (w, r4) =>
  match rdU16 r4 with
  | .error e => .error e
  | .ok (h, r5) => .ok ({ id := wid, x := x, y := y, width := w, height := h }, r5)

/-- Reads a counted list of window records. -/
def decodeWinDefs : Nat → List Nat → Except SegReadError (List WinDef × List Nat)
  | 0, bs => .ok ([], bs)
  | n + 1, bs =>
    match decodeWinDef bs with
    | .error e => .error e
    | .ok (wd, r) =>
    match decodeWinDefs n r with
    | .error e => .error e
    | .ok (wds, rest) => .ok (wd :: wds, rest)

/-- Modelled from the spec: the PresentationComposition body layout of the
pgs::read module, which is not part of src/ (spec §6: composition id, screen
width, screen height, state byte, object count, then the object records; the
declared body must be consumed exactly). -/
def decodePCS (body : List Nat) : Except SegReadError PresComp :=
  match rdU16 body with
  | .error _ => .error .bodyError
  | .ok (cn, r1) =>
  match rdU16 r1 with
  | .error _ => .error .bodyError
  | .ok (w, r2) =>
  match rdU16 r2 with
  | .error _ => .error .bodyError
  | .ok (h, r3) =>
  match rdByte r3 with
  | .error _ => .error .bodyError
  | .ok (st, r4) =>
  match rdByte r4 with
  | .error _ => .error .bodyError
  | .ok (cnt, r5) =>
  match decodeCompObjs cnt r5 with
  | .error _ => .error .bodyError
  | .ok (objs, rest) =>
    if rest = [] then
      .ok { comp_num := cn, width := w, height := h, state := st, comp_objs := objs }
    else
      .error .bodyError

/-- Modelled from the spec: the WindowDefinition body layout of the
pgs::read module, which is not part of src/ (spec §6: a count followed by
window records; the declared body must be consumed exactly). -/
def decodeWDS (body : List Nat) : Except SegReadError (List WinDef) :=
  match rdByte body with
  | .error _ => .error .bodyError
  | .ok (cnt, r1) =>
  match decodeWinDefs cnt r1 with
  | .error _ => .error .bodyError
  | .ok (wds, rest) =>
    if rest = [] then .ok wds else .error .bodyError

/-- Modelled from the spec: the ObjectDefinition body layout of the
pgs::read module, which is not part of src/ (spec §6: object id, width,
height, then the opaque encoded payload filling the rest of the body). -/
def decodeODS (body : List Nat) : Except SegReadError ObjDef :=
  match rdU16 body with
  | .error _ => .error .bodyError
  | .ok (oid, r1) =>
  match rdU16 r1 with
  | .error _ => .error .bodyError
  | .ok (w, r2) =>
  match rdU16 r2 with
  | .error _ => .error .bodyError
  | .ok (h, r3) => .ok { id := oid, width := w, height := h, data := r3 }

/-- Modelled from the spec: dispatch over the one-byte type code of the
pgs::read module, which is not part of src/ (spec §6; an unknown type code
is a bitstream error). -/
def decodeBody (tc : Nat) (body : List Nat) : Except SegReadError SegBody :=
  if tc = 22 then
    match decodePCS body with
    | .error e => .error e
    | .ok p => .ok (.presComp p)
  else if tc = 23 then
    match decodeWDS body with
    | .error e => .error e
    | .ok wds => .ok (.winDef wds)
  else if tc = 21 then
    match decodeODS body with
    | .error e => .error e
    | .ok o => .ok (.objDef o)
  else if tc = 20 then
    .ok (.palDef body)
  else if tc = 128 then
    if body = [] then .ok .endOfDisplaySet else .error .bodyError
  else
    .error .unknownTypeCode

/-- Modelled from the spec: the segment reader of the pgs::read module,
which is not part of src/ (spec §4.1): 2-byte magic marker, two big-endian
32-bit timestamps, a type code, a big-endian 16-bit body length, then
exactly that many body bytes.  An empty stream is a clean end at a segment
boundary (eof); running out of bytes anywhere else is unexpectedEof. -/
def readSeg : List Nat → Except SegReadError (Seg × List Nat)
  | [] => .error .eof
  | b0 :: bs1 =>
    match rdByte bs1 with
    | .error e => .error e
    | .ok (b1, r1) =>
    if b0 = 80 ∧ b1 = 71 then
      match rdU32 r1 with
      | .error e => .error e
      | .ok (pts, r2) =>
      match rdU32 r2 with
      | .error e => .error e
      | .ok (dts, r3) =>
      match rdByte r3 with
      | .error e => .error e
      | .ok (tc, r4) =>
      match rdU16 r4 with
      | .error e => .error e
      | .ok (len, r5) =>
      match rdBytes len r5 with
      | .error e => .error e
      | .ok (body, rest) =>
      match decodeBody tc body with
      | .error e => .error e
      | .ok sb => .ok ({ pts := pts, dts := dts, body := sb }, rest)
    else
      .error .badMagic

/-- Concatenates the encodings of a list of records. -/
def encodeList (f : α → List Nat) : List α → List Nat
  | [] => []
  | a :: as => f a ++ encodeList f as

/-- Modelled from the spec: serialization of one composition-object record
by the pgs::write module, which is not part of src/ (inverse of
decodeCompObj). -/
def encodeCompObj (co : CompObj) : List Nat :=
  wrU16 co.obj_id ++ wrByte co.win_id ++
  (match co.crop with
   | none => wrByte 0 ++ wrU16 co.x ++ wrU16 co.y
   | some c =>
     wrByte 64 ++ wrU16 co.x ++ wrU16 co.y ++
     wrU16 c.x ++ wrU16 c.y ++ wrU16 c.width ++ wrU16 c.height)

/-- Modelled from the spec: serialization of one window record by the
pgs::write module, which is not part of src/ (inverse of decodeWinDef). -/
def encodeWinDef (wd : WinDef) : List Nat :=
  wrByte wd.id ++ wrU16 wd.x ++ wrU16 wd.y ++ wrU16 wd.width ++ wrU16 wd.height

/-- Modelled from the spec: body serialization of the pgs::write module,
which is not part of src/ (inverse of decodeBody at each type code). -/
def encodeBody : SegBody → List Nat
  | .presComp p =>
    wrU16 p.comp_num ++ wrU16 p.width ++ wrU16 p.height ++ wrByte p.state ++
    wrByte p.comp_objs.length ++ encodeList encodeCompObj p.comp_objs
  | .winDef wds => wrByte wds.length ++ encodeList encodeWinDef wds
  | .objDef o => wrU16 o.id ++ wrU16 o.width ++ wrU16 o.height ++ o.data
  | .palDef d => d
  | .endOfDisplaySet => []

/-- Type code of each body variant (spec §6). -/
def typeCode : SegBody → Nat
  | .presComp _ => 22
  | .winDef _ => 23
  | .objDef _ => 21
  | .palDef _ => 20
  | .endOfDisplaySet => 128

/-- Modelled from the spec: the segment writer of the pgs::write module,
which is not part of src/ (spec §4.1); the body-length field is recomputed
from the actually-serialized body. -/
def encodeSeg (s : Seg) : List Nat :=
  80 :: 71 :: (wrU32 s.pts ++ wrU32 s.dts ++ wrByte (typeCode s.body) ++
    wrU16 (encodeBody s.body).length ++ encodeBody s.body)

/-- A well-formed byte stream: every element is an octet. -/
def allBytes (bs : List Nat) : Prop := ∀ b ∈ bs, b < 256

-- sanity check: a hand-made EndOfDisplaySet segment decodes and re-encodes
example :
    readSeg [80, 71, 0,0,0,1, 0,0,0,2, 128, 0,0, 9, 9]
      = .ok ({ pts := 1, dts := 2, body := .endOfDisplaySet }, [9, 9]) := by rfl
example :
    encodeSeg { pts := 1, dts := 2, body := .endOfDisplaySet }
      = [80, 71, 0,0,0,1, 0,0,0,2, 128, 0,0] := by rfl

/-- Helper: a successful byte read splits the stream as its re-encoding. -/
theorem rdByte_rt {bs : List Nat} {v : Nat} {rest : List Nat}
    (h : rdByte bs = .ok (v, rest)) (hall : allBytes bs) :
    bs = wrByte v ++ rest ∧ v < 256 ∧ allBytes rest := by
  cases bs with
  | nil => simp [rdByte] at h
  | cons b tl =>
    simp [rdByte] at h
    obtain ⟨rfl, rfl⟩ := h
    have hb : b < 256 := hall b (by simp)
    refine ⟨by simp [wrByte, Nat.mod_eq_of_lt hb], hb, ?_⟩
    intro x hx
    exact hall x (by simp [hx])

/-- Helper: a successful 16-bit read splits the stream as its re-encoding. -/
theorem rdU16_rt {bs : List Nat} {v : Nat} {rest : List Nat}
    (h : rdU16 bs = .ok (v, rest)) (hall : allBytes bs) :
    bs = wrU16 v ++ rest ∧ v ≤ 65535 ∧ allBytes rest := by
  match bs with
  | [] => simp [rdU16] at h
  | [b] => simp [rdU16] at h
  | b0 :: b1 :: tl =>
    simp [rdU16] at h
    obtain ⟨rfl, rfl⟩ := h
    have h0 : b0 < 256 := hall _ (by simp)
    have h1 : b1 < 256 := hall _ (by simp)
    refine ⟨?_, by omega, ?_⟩
    · simp only [wrU16, List.cons_append, List.nil_append, List.cons.injEq]
      refine ⟨by omega, by omega, trivial⟩
    · intro x hx
      exact hall x (by simp [hx])

/-- Helper: a successful 32-bit read splits the stream as its re-encoding. -/
theorem rdU32_rt {bs : List Nat} {v : Nat} {rest : List Nat}
    (h : rdU32 bs = .ok (v, rest)) (hall : allBytes bs) :
    bs = wrU32 v ++ rest ∧ allBytes rest := by
  match bs with
  | [] => simp [rdU32] at h
  | [_] => simp [rdU32] at h
  | [_, _] => simp [rdU32] at h
  | [_, _, _] => simp [rdU32] at h
  | b0 :: b1 :: b2 :: b3 :: tl =>
    simp [rdU32] at h
    obtain ⟨rfl, rfl⟩ := h
    have h0 : b0 < 256 := hall _ (by simp)
    have h1 : b1 < 256 := hall _ (by simp)
    have h2 : b2 < 256 := hall _ (by simp)
    have h3 : b3 < 256 := hall _ (by simp)
    refine ⟨?_, ?_⟩
    · simp only [wrU32, List.cons_append, List.nil_append, List.cons.injEq]
      refine ⟨by omega, by omega, by omega, by omega, trivial⟩
    · intro x hx
      exact hall x (by simp [hx])

/-- Helper: a successful raw-byte read splits the stream at the read count. -/
theorem rdBytes_rt {n : Nat} {bs xs rest : List Nat}
    (h : rdBytes n bs = .ok (xs, rest)) (hall : allBytes bs) :
    bs = xs ++ rest ∧ xs.length = n ∧ allBytes rest := by
  induction n generalizing bs xs with
  | zero =>
    simp [rdBytes] at h
    obtain ⟨rfl, rfl⟩ := h
    exact ⟨by simp, rfl, hall⟩
  | succ m ih =>
    cases bs with
    | nil => simp [rdBytes] at h
    | cons b tl =>
      simp only [rdBytes] at h
      cases h2 : rdBytes m tl with
      | error e => simp [h2] at h
      | ok p =>
        obtain ⟨xs0, rest0⟩ := p
        simp only [h2] at h
        simp at h
        obtain ⟨rfl, rfl⟩ := h
        have hall1 : allBytes tl := fun x hx => hall x (by simp [hx])
        obtain ⟨he, hlen, hrest⟩ := ih h2 hall1
        subst he
        exact ⟨by simp, by simp [hlen], hrest⟩

/-- Helper: a successfully decoded composition-object record re-encodes to
exactly the bytes consumed. -/
theorem decodeCompObj_rt {bs : List Nat} {co : CompObj} {rest : List Nat}
    (h : decodeCompObj bs = .ok (co, rest)) (hall : allBytes bs) :
    bs = encodeCompObj co ++ rest ∧ allBytes rest := by
  unfold decodeCompObj at h
  cases h1 : rdU16 bs with
  | error e => simp [h1] at h
  | ok v1 =>
  obtain ⟨oid, r1⟩ := v1
  simp only [h1] at h
  obtain ⟨e1, _, hall1⟩ := rdU16_rt h1 hall
  cases h2 : rdByte r1 with
  | error e => simp [h2] at h
  | ok v2 =>
  obtain ⟨wid, r2⟩ := v2
  simp only [h2] at h
  obtain ⟨e2, _, hall2⟩ := rdByte_rt h2 hall1
  cases h3 : rdByte r2 with
  | error e => simp [h3] at h
  | ok v3 =>
  obtain ⟨flag, r3⟩ := v3
  simp only [h3] at h
  obtain ⟨e3, _, hall3⟩ := rdByte_rt h3 hall2
  cases h4 : rdU16 r3 with
  | error e => simp [h4] at h
  | ok v4 =>
  obtain ⟨x, r4⟩ := v4
  simp only [h4] at h
  obtain ⟨e4, _, hall4⟩ := rdU16_rt h4 hall3
  cases h5 : rdU16 r4 with
  | error e => simp [h5] at h
  | ok v5 =>
  obtain ⟨y, r5⟩ := v5
  simp only [h5] at h
  obtain ⟨e5, _, hall5⟩ := rdU16_rt h5 hall4
  by_cases hf : flag = 64
  · rw [if_pos hf] at h
    subst hf
    cases h6 : rdU16 r5 with
    | error e => simp [h6] at h
    | ok v6 =>
    obtain ⟨cx, r6⟩ := v6
    simp only [h6] at h
    obtain ⟨e6, _, hall6⟩ := rdU16_rt h6 hall5
    cases h7 : rdU16 r6 with
    | error e => simp [h7] at h
    | ok v7 =>
    obtain ⟨cy, r7⟩ := v7
    simp only [h7] at h
    obtain ⟨e7, _, hall7⟩ := rdU16_rt h7 hall6
    cases h8 : rdU16 r7 with
    | error e => simp [h8] at h
    | ok v8 =>
    obtain ⟨cw, r8⟩ := v8
    simp only [h8] at h
    obtain ⟨e8, _, hall8⟩ := rdU16_rt h8 hall7
    cases h9 : rdU16 r8 with
    | error e => simp [h9] at h
    | ok v9 =>
    obtain ⟨ch, r9⟩ := v9
    simp only [h9] at h
    obtain ⟨e9, _, hall9⟩ := rdU16_rt h9 hall8
    simp at h
    obtain ⟨rfl, rfl⟩ := h
    subst e1 e2 e3 e4 e5 e6 e7 e8 e9
    refine ⟨?_, hall9⟩
    simp [encodeCompObj, List.append_assoc]
  · rw [if_neg hf] at h
    by_cases hz : flag = 0
    · rw [if_pos hz] at h
      subst hz
      simp at h
      obtain ⟨rfl, rfl⟩ := h
      subst e1 e2 e3 e4 e5
      refine ⟨?_, hall5⟩
      simp [encodeCompObj, List.append_assoc]
    · rw [if_neg hz] at h
      simp at h

/-- Helper: a successfully decoded counted list of composition objects
re-encodes to exactly the bytes consumed, and has the declared count. -/
theorem decodeCompObjs_rt {n : Nat} {bs : List Nat} {objs : List CompObj}
    {rest : List Nat}
    (h : decodeCompObjs n bs = .ok (objs, rest)) (hall : allBytes bs) :
    bs = encodeList encodeCompObj objs ++ rest ∧ objs.length = n ∧
      allBytes rest := by
  induction n generalizing bs objs with
  | zero =>
    simp [decodeCompObjs] at h
    obtain ⟨rfl, rfl⟩ := h
    exact ⟨by simp [encodeList], rfl, hall⟩
  | succ m ih =>
    simp only [decodeCompObjs] at h
    cases h1 : decodeCompObj bs with
    | error e => simp [h1] at h
    | ok p =>
    obtain ⟨co, r1⟩ := p
    simp only [h1] at h
    obtain ⟨e1, hall1⟩ := decodeCompObj_rt h1 hall
    cases h2 : decodeCompObjs m r1 with
    | error e => simp [h2] at h
    | ok q =>
    obtain ⟨objs0, rest0⟩ := q
    simp only [h2] at h
    simp at h
    obtain ⟨rfl, rfl⟩ := h
    obtain ⟨e2, hlen, hrest⟩ := ih h2 hall1
    subst e1 e2
    exact ⟨by simp [encodeList, List.append_assoc], by simp [hlen], hrest⟩

/-- Helper: a successfully decoded window record re-encodes to exactly the
bytes consumed. -/
theorem decodeWinDef_rt {bs : List Nat} {wd : WinDef} {rest : List Nat}
    (h : decodeWinDef bs = .ok (wd, rest)) (hall : allBytes bs) :
    bs = encodeWinDef wd ++ rest ∧ allBytes rest := by
  unfold decodeWinDef at h
  cases h1 : rdByte bs with
  | error e => simp [h1] at h
  | ok v1 =>
  obtain ⟨wid, r1⟩ := v1
  simp only [h1] at h
  obtain ⟨e1, _, hall1⟩ := rdByte_rt h1 hall
  cases h2 : rdU16 r1 with
  | error e => simp [h2] at h
  | ok v2 =>
  obtain ⟨x, r2⟩ := v2
  simp only [h2] at h
  obtain ⟨e2, _, hall2⟩ := rdU16_rt h2 hall1
  cases h3 : rdU16 r2 with
  | error e => simp [h3] at h
  | ok v3 =>
  obtain ⟨y, r3⟩ := v3
  simp only [h3] at h
  obtain ⟨e3, _, hall3⟩ := rdU16_rt h3 hall2
  cases h4 : rdU16 r3 with
  | error e => simp [h4] at h
  | ok v4 =>
  obtain ⟨w, r4⟩ := v4
  simp only [h4] at h
  obtain ⟨e4, _, hall4⟩ := rdU16_rt h4 hall3
  cases h5 : rdU16 r4 with
  | error e => simp [h5] at h
  | ok v5 =>
  obtain ⟨hh, r5⟩ := v5
  simp only [h5] at h
  obtain ⟨e5, _, hall5⟩ := rdU16_rt h5 hall4
  simp at h
  obtain ⟨rfl, rfl⟩ := h
  subst e1 e2 e3 e4 e5
  exact ⟨by simp [encodeWinDef, List.append_assoc], hall5⟩

/-- Helper: a successfully decoded counted list of window records re-encodes
to exactly the bytes consumed, and has the declared count. -/
theorem decodeWinDefs_rt {n : Nat} {bs : List Nat} {wds : List WinDef}
    {rest : List Nat}
    (h : decodeWinDefs n bs = .ok (wds, rest)) (hall : allBytes bs) :
    bs = encodeList encodeWinDef wds ++ rest ∧ wds.length = n ∧
      allBytes rest := by
  induction n generalizing bs wds with
  | zero =>
    simp [decodeWinDefs] at h
    obtain ⟨rfl, rfl⟩ := h
    exact ⟨by simp [encodeList], rfl, hall⟩
  | succ m ih =>
    simp only [decodeWinDefs] at h
    cases h1 : decodeWinDef bs with
    | error e => simp [h1] at h
    | ok p =>
    obtain ⟨wd, r1⟩ := p
    simp only [h1] at h
    obtain ⟨e1, hall1⟩ := decodeWinDef_rt h1 hall
    cases h2 : decodeWinDefs m r1 with
    | error e => simp [h2] at h
    | ok q =>
    obtain ⟨wds0, rest0⟩ := q
    simp only [h2] at h
    simp at h
    obtain ⟨rfl, rfl⟩ := h
    obtain ⟨e2, hlen, hrest⟩ := ih h2 hall1
    subst e1 e2
    exact ⟨by simp [encodeList, List.append_assoc], by simp [hlen], hrest⟩

/-- Helper: a successfully decoded PresentationComposition body re-encodes
to exactly the declared body bytes. -/
theorem decodePCS_rt {body : List Nat} {p : PresComp}
    (h : decodePCS body = .ok p) (hall : allBytes body) :
    body = encodeBody (.presComp p) := by
  unfold decodePCS at h
  cases h1 : rdU16 body with
  | error e => simp [h1] at h
  | ok v1 =>
  obtain ⟨cn, r1⟩ := v1
  simp only [h1] at h
  obtain ⟨e1, _, hall1⟩ := rdU16_rt h1 hall
  cases h2 : rdU16 r1 with
  | error e => simp [h2] at h
  | ok v2 =>
  obtain ⟨w, r2⟩ := v2
  simp only [h2] at h
  obtain ⟨e2, _, hall2⟩ := rdU16_rt h2 hall1
  cases h3 : rdU16 r2 with
  | error e => simp [h3] at h
  | ok v3 =>
  obtain ⟨hh, r3⟩ := v3
  simp only [h3] at h
  obtain ⟨e3, _, hall3⟩ := rdU16_rt h3 hall2
  cases h4 : rdByte r3 with
  | error e => simp [h4] at h
  | ok v4 =>
  obtain ⟨st, r4⟩ := v4
  simp only [h4] at h
  obtain ⟨e4, _, hall4⟩ := rdByte_rt h4 hall3
  cases h5 : rdByte r4 with
  | error e => simp [h5] at h
  | ok v5 =>
  obtain ⟨cnt, r5⟩ := v5
  simp only [h5] at h
  obtain ⟨e5, _, hall5⟩ := rdByte_rt h5 hall4
  cases h6 : decodeCompObjs cnt r5 with
  | error e => simp [h6] at h
  | ok v6 =>
  obtain ⟨objs, rest⟩ := v6
  simp only [h6] at h
  obtain ⟨e6, hlen, _⟩ := decodeCompObjs_rt h6 hall5
  by_cases hr : rest = []
  · rw [if_pos hr] at h
    simp at h
    subst h hr e1 e2 e3 e4 e5 e6
    simp [encodeBody, hlen, List.append_assoc]
  · rw [if_neg hr] at h
    simp at h

/-- Helper: a successfully decoded WindowDefinition body re-encodes to
exactly the declared body bytes. -/
theorem decodeWDS_rt {body : List Nat} {wds : List WinDef}
    (h : decodeWDS body = .ok wds) (hall : allBytes body) :
    body = encodeBody (.winDef wds) := by
  unfold decodeWDS at h
  cases h1 : rdByte body with
  | error e => simp [h1] at h
  | ok v1 =>
  obtain ⟨cnt, r1⟩ := v1
  simp only [h1] at h
  obtain ⟨e1, _, hall1⟩ := rdByte_rt h1 hall
  cases h2 : decodeWinDefs cnt r1 with
  | error e => simp [h2] at h
  | ok v2 =>
  obtain ⟨wds0, rest⟩ := v2
  simp only [h2] at h
  obtain ⟨e2, hlen, _⟩ := decodeWinDefs_rt h2 hall1
  by_cases hr : rest = []
  · rw [if_pos hr] at h
    simp at h
    subst h hr e1 e2
    simp [encodeBody, hlen, List.append_assoc]
  · rw [if_neg hr] at h
    simp at h

/-- Helper: a successfully decoded ObjectDefinition body re-encodes to
exactly the declared body bytes. -/
theorem decodeODS_rt {body : List Nat} {o : ObjDef}
    (h : decodeODS body = .ok o) (hall : allBytes body) :
    body = encodeBody (.objDef o) := by
  unfold decodeODS at h
  cases h1 : rdU16 body with
  | error e => simp [h1] at h
  | ok v1 =>
  obtain ⟨oid, r1⟩ := v1
  simp only [h1] at h
  obtain ⟨e1, _, hall1⟩ := rdU16_rt h1 hall
  cases h2 : rdU16 r1 with
  | error e => simp [h2] at h
  | ok v2 =>
  obtain ⟨w, r2⟩ := v2
  simp only [h2] at h
  obtain ⟨e2, _, hall2⟩ := rdU16_rt h2 hall1
  cases h3 : rdU16 r2 with
  | error e => simp [h3] at h
  | ok v3 =>
  obtain ⟨hh, r3⟩ := v3
  simp only [h3] at h
  obtain ⟨e3, _, hall3⟩ := rdU16_rt h3 hall2
  simp at h
  subst h e1 e2 e3
  simp [encodeBody, List.append_assoc]

/-- Helper: a successfully decoded body re-encodes to exactly the declared
body bytes, and the decoded variant recovers the type code that selected
it. -/
theorem decodeBody_rt {tc : Nat} {body : List Nat} {sb : SegBody}
    (h : decodeBody tc body = .ok sb) (hall : allBytes body) :
    typeCode sb = tc ∧ encodeBody sb = body := by
  unfold decodeBody at h
  by_cases h22 : tc = 22
  · rw [if_pos h22] at h
    cases h1 : decodePCS body with
    | error e => simp [h1] at h
    | ok p =>
      simp only [h1] at h
      simp at h
      subst h h22
      exact ⟨rfl, (decodePCS_rt h1 hall).symm⟩
  · rw [if_neg h22] at h
    by_cases h23 : tc = 23
    · rw [if_pos h23] at h
      cases h1 : decodeWDS body with
      | error e => simp [h1] at h
      | ok wds =>
        simp only [h1] at h
        simp at h
        subst h h23
        exact ⟨rfl, (decodeWDS_rt h1 hall).symm⟩
    · rw [if_neg h23] at h
      by_cases h21 : tc = 21
      · rw [if_pos h21] at h
        cases h1 : decodeODS body with
        | error e => simp [h1] at h
        | ok o =>
          simp only [h1] at h
          simp at h
          subst h h21
          exact ⟨rfl, (decodeODS_rt h1 hall).symm⟩
      · rw [if_neg h21] at h
        by_cases h20 : tc = 20
        · rw [if_pos h20] at h
          simp at h
          subst h h20
          exact ⟨rfl, rfl⟩
        · rw [if_neg h20] at h
          by_cases h128 : tc = 128
          · rw [if_pos h128] at h
            by_cases hb : body = []
            · rw [if_pos hb] at h
              simp at h
              subst h h128 hb
              exact ⟨rfl, rfl⟩
            · rw [if_neg hb] at h
              simp at h
          · rw [if_neg h128] at h
            simp at h

/-- C2: decoding a segment from a byte stream and re-encoding it reproduces
the consumed bytes exactly, for every decodable segment — in particular for
every segment whose body the transformer does not alter, the codec
round-trip is byte-identical (spec-modelled codec: the pgs::read and
pgs::write modules are not part of src/). -/
theorem C2_decode_encode_roundtrip {bs : List Nat} {seg : Seg} {rest : List Nat}
    (hall : allBytes bs) (h : readSeg bs = .ok (seg, rest)) :
    encodeSeg seg ++ rest = bs := by
  cases bs with
  | nil => simp [readSeg] at h
  | cons b0 bs1 =>
  simp only [readSeg] at h
  have hall1 : allBytes bs1 := fun x hx => hall x (by simp [hx])
  cases h1 : rdByte bs1 with
  | error e => simp [h1] at h
  | ok v1 =>
  obtain ⟨b1, r1⟩ := v1
  simp only [h1] at h
  obtain ⟨e1, _, hallr1⟩ := rdByte_rt h1 hall1
  by_cases hm : b0 = 80 ∧ b1 = 71
  · rw [if_pos hm] at h
    obtain ⟨hm0, hm1⟩ := hm
    cases h2 : rdU32 r1 with
    | error e => simp [h2] at h
    | ok v2 =>
    obtain ⟨pts, r2⟩ := v2
    simp only [h2] at h
    obtain ⟨e2, hallr2⟩ := rdU32_rt h2 hallr1
    cases h3 : rdU32 r2 with
    | error e => simp [h3] at h
    | ok v3 =>
    obtain ⟨dts, r3⟩ := v3
    simp only [h3] at h
    obtain ⟨e3, hallr3⟩ := rdU32_rt h3 hallr2
    cases h4 : rdByte r3 with
    | error e => simp [h4] at h
    | ok v4 =>
    obtain ⟨tc, r4⟩ := v4
    simp only [h4] at h
    obtain ⟨e4, _, hallr4⟩ := rdByte_rt h4 hallr3
    cases h5 : rdU16 r4 with
    | error e => simp [h5] at h
    | ok v5 =>
    obtain ⟨len, r5⟩ := v5
    simp only [h5] at h
    obtain ⟨e5, _, hallr5⟩ := rdU16_rt h5 hallr4
    cases h6 : rdBytes len r5 with
    | error e => simp [h6] at h
    | ok v6 =>
    obtain ⟨body, rest0⟩ := v6
    simp only [h6] at h
    obtain ⟨e6, hblen, _⟩ := rdBytes_rt h6 hallr5
    have hallbody : allBytes body := by
      intro x hx
      exact hallr5 x (by rw [e6]; simp [hx])
    cases h7 : decodeBody tc body with
    | error e => simp [h7] at h
    | ok sb =>
    simp only [h7] at h
    obtain ⟨htc, hbody⟩ := decodeBody_rt h7 hallbody
    simp at h
    obtain ⟨rfl, rfl⟩ := h
    subst e1 e2 e3 e4 e5 e6 hm0 hm1
    simp [encodeSeg, wrByte, htc, hbody, hblen, List.append_assoc]
  · rw [if_neg hm] at h
    simp at h

/-- Witness for C2_decode_encode_roundtrip on a concrete stream: one
EndOfDisplaySet segment followed by one extra byte. -/
theorem C2_decode_encode_roundtrip_witness :
    allBytes [80, 71, 0, 0, 0, 1, 0, 0, 0, 2, 128, 0, 0, 9] ∧
    encodeSeg { pts := 1, dts := 2, body := .endOfDisplaySet } ++ [9]
      = [80, 71, 0, 0, 0, 1, 0, 0, 0, 2, 128, 0, 0, 9] :=
  ⟨by unfold allBytes; decide, C2_decode_encode_roundtrip (by unfold allBytes; decide) (by rfl)⟩

/-- Helper: a successful byte read strictly shrinks the stream. -/
theorem rdByte_shrink {bs : List Nat} {v : Nat} {r : List Nat}
    (h : rdByte bs = .ok (v, r)) : r.length < bs.length := by
  cases bs with
  | nil => simp [rdByte] at h
  | cons b tl => simp [rdByte] at h; obtain ⟨_, rfl⟩ := h; simp

/-- Helper: a successful 16-bit read does not grow the stream. -/
theorem rdU16_shrink {bs : List Nat} {v : Nat} {r : List Nat}
    (h : rdU16 bs = .ok (v, r)) : r.length ≤ bs.length := by
  match bs with
  | [] => simp [rdU16] at h
  | [_] => simp [rdU16] at h
  | b0 :: b1 :: tl => simp [rdU16] at h; obtain ⟨_, rfl⟩ := h; simp; omega

/-- Helper: a successful 32-bit read does not grow the stream. -/
theorem rdU32_shrink {bs : List Nat} {v : Nat} {r : List Nat}
    (h : rdU32 bs = .ok (v, r)) : r.length ≤ bs.length := by
  match bs with
  | [] => simp [rdU32] at h
  | [_] => simp [rdU32] at h
  | [_, _] => simp [rdU32] at h
  | [_, _, _] => simp [rdU32] at h
  | b0 :: b1 :: b2 :: b3 :: tl =>
    simp [rdU32] at h; obtain ⟨_, rfl⟩ := h; simp; omega

/-- Helper: a successful raw-byte read does not grow the stream. -/
theorem rdBytes_shrink {n : Nat} {bs xs r : List Nat}
    (h : rdBytes n bs = .ok (xs, r)) : r.length ≤ bs.length := by
  induction n generalizing bs xs with
  | zero => simp [rdBytes] at h; obtain ⟨_, rfl⟩ := h; simp
  | succ m ih =>
    cases bs with
    | nil => simp [rdBytes] at h
    | cons b tl =>
      simp only [rdBytes] at h
      cases h2 : rdBytes m tl with
      | error e => simp [h2] at h
      | ok p =>
        obtain ⟨xs0, r0⟩ := p
        simp only [h2] at h
        simp at h
        obtain ⟨_, rfl⟩ := h
        have := ih h2
        simp
        omega

/-- Helper: a successfully read segment strictly shrinks the stream, which
makes the decode-all loop terminate. -/
theorem readSeg_shrink {bs : List Nat} {s : Seg} {rest : List Nat}
    (h : readSeg bs = .ok (s, rest)) : rest.length < bs.length := by
  cases bs with
  | nil => simp [readSeg] at h
  | cons b0 bs1 =>
  simp only [readSeg] at h
  cases h1 : rdByte bs1 with
  | error e => simp [h1] at h
  | ok v1 =>
  obtain ⟨b1, r1⟩ := v1
  simp only [h1] at h
  have l1 := rdByte_shrink h1
  by_cases hm : b0 = 80 ∧ b1 = 71
  · rw [if_pos hm] at h
    cases h2 : rdU32 r1 with
    | error e => simp [h2] at h
    | ok v2 =>
    obtain ⟨pts, r2⟩ := v2
    simp only [h2] at h
    have l2 := rdU32_shrink h2
    cases h3 : rdU32 r2 with
    | error e => simp [h3] at h
    | ok v3 =>
    obtain ⟨dts, r3⟩ := v3
    simp only [h3] at h
    have l3 := rdU32_shrink h3
    cases h4 : rdByte r3 with
    | error e => simp [h4] at h
    | ok v4 =>
    obtain ⟨tc, r4⟩ := v4
    simp only [h4] at h
    have l4 := rdByte_shrink h4
    cases h5 : rdU16 r4 with
    | error e => simp [h5] at h
    | ok v5 =>
    obtain ⟨len, r5⟩ := v5
    simp only [h5] at h
    have l5 := rdU16_shrink h5
    cases h6 : rdBytes len r5 with
    | error e => simp [h6] at h
    | ok v6 =>
    obtain ⟨body, rest0⟩ := v6
    simp only [h6] at h
    have l6 := rdBytes_shrink h6
    cases h7 : decodeBody tc body with
    | error e => simp [h7] at h
    | ok sb =>
    simp only [h7] at h
    simp at h
    obtain ⟨_, rfl⟩ := h
    simp
    omega
  · rw [if_neg hm] at h
    simp at h

/-- Fatal error classes surfaced by the pipeline driver, following the
taxonomy of spec §7. -/
inductive PipelineError where
  | transport
  | bitstream
deriving DecidableEq

/-- Embedding of the decode-all loop (src/main.rs lines 135-155), which
pushes each successfully read segment and stops at the first read error.
The dispatch follows main.rs lines 141-151 exactly: an IO error whose kind
is UnexpectedEof breaks the loop normally — the loop's only normal exit —
which covers both a clean end-of-stream at a segment boundary (eof) and a
truncated segment (unexpectedEof); an IO error of any other kind is a fatal
transport panic (such errors cannot arise in this pure byte-list model);
every other read error is a fatal bitstream panic. -/
def decodeAllGo (bs : List Nat) (acc : List Seg) : Except PipelineError (List Seg) :=
  match h : readSeg bs with
  | .ok (s, rest) => decodeAllGo rest (acc ++ [s])
  | .error .eof => .ok acc
  | .error .unexpectedEof => .ok acc
  | .error _ => .error .bitstream
termination_by bs.length
decreasing_by exact readSeg_shrink h

/-- The decode-all pass: reads segments until the stream ends. -/
def decodeAll (bs : List Nat) : Except PipelineError (List Seg) :=
  decodeAllGo bs []

/-- C4: evidence that the claim is right and the code is wrong.  The stream
consisting of the single byte 80 ends in the middle of a segment (after one
magic byte), yet the decode loop of src/main.rs lines 135-155 terminates
normally with the segments read so far — exactly as it does on the empty
stream, a clean end at a segment boundary — because the loop breaks on any
UnexpectedEof IO error instead of failing fatally on a truncated
segment. -/
theorem C4_truncated_eof_not_fatal :
    readSeg [80] = .error .unexpectedEof ∧
    decodeAllGo [80] [] = .ok [] ∧
    decodeAllGo [] [] = .ok [] := by
  refine ⟨by rfl, ?_, ?_⟩
  · have hx : readSeg [80] = .error .unexpectedEof := by rfl
    rw [decodeAllGo]
    split
    · simp_all
    · simp_all
    · rfl
    · simp_all
  · have hx : readSeg [] = .error .eof := by rfl
    rw [decodeAllGo]
    split
    · simp_all
    · rfl
    · simp_all
    · simp_all

/-- Key of the object-size inventory (src/main.rs lines 25-29). -/
structure ObjHandle where
  comp_num : Nat
  obj_id : Nat
deriving DecidableEq

/-- Pixel dimensions of an object (src/main.rs lines 31-35). -/
structure Size where
  width : Nat
  height : Nat
deriving DecidableEq

/-- Lookup in the inventory, modelling HashMap access keyed by ObjHandle. -/
def invLookup : List (ObjHandle × Size) → ObjHandle → Option Size
  | [], _ => none
  | (k, v) :: rest, h => if k = h then some v else invLookup rest h

/-- Fatal error of the inventory pass: the duplicate-object panic of
src/main.rs line 172. -/
inductive InvError where
  | duplicateObjectId
deriving DecidableEq

/-- Embedding of one iteration of the inventory loop (src/main.rs lines
162-179): a PresentationComposition updates the composition cursor, an
ObjectDefinition is recorded under the cursor unless its key is already
present, and every other segment is skipped. -/
def invStep (cn : Nat) (m : List (ObjHandle × Size)) (seg : Seg) :
    Except InvError (Nat × List (ObjHandle × Size)) :=
  match seg.body with
  | .presComp pcs => .ok (pcs.comp_num, m)
  | .objDef ods =>
    match invLookup m { comp_num := cn, obj_id := ods.id } with
    | some _ => .error .duplicateObjectId
    | none =>
      .ok (cn, ({ comp_num := cn, obj_id := ods.id },
        { width := ods.width, height := ods.height }) :: m)
  | _ => .ok (cn, m)

/-- The inventory loop folded over a segment list. -/
def invGo (cn : Nat) (m : List (ObjHandle × Size)) :
    List Seg → Except InvError (Nat × List (ObjHandle × Size))
  | [] => .ok (cn, m)
  | seg :: rest =>
    match invStep cn m seg with
    | .error e => .error e
    | .ok (cn2, m2) => invGo cn2 m2 rest

/-- Embedding of the inventory pass (src/main.rs lines 157-179): the
composition cursor starts at 0 and the map starts empty. -/
def buildInventory (segs : List Seg) : Except InvError (List (ObjHandle × Size)) :=
  match invGo 0 [] segs with
  | .error e => .error e
  | .ok (_, m) => .ok m

/-- Composition cursor after scanning a segment list: the comp_num of the
most recently seen PresentationComposition, or the initial value. -/
def compAfter (cn : Nat) : List Seg → Nat
  | [] => cn
  | seg :: rest =>
    match seg.body with
    | .presComp pcs => compAfter pcs.comp_num rest
    | _ => compAfter cn rest

/-- Success test for an Except value. -/
def exceptOk : Except ε α → Bool
  | .ok _ => true
  | .error _ => false

/-- Helper: the inventory loop splits over list concatenation. -/
theorem invGo_append (cn : Nat) (m : List (ObjHandle × Size))
    (a b : List Seg) :
    invGo cn m (a ++ b) =
      match invGo cn m a with
      | .error e => .error e
      | .ok (cn2, m2) => invGo cn2 m2 b := by
  induction a generalizing cn m with
  | nil => simp [invGo]
  | cons seg tl ih =>
    simp only [List.cons_append, invGo]
    cases invStep cn m seg with
    | error e => rfl
    | ok p =>
      obtain ⟨cn2, m2⟩ := p
      simp [ih]

/-- Helper: a successful inventory scan tracks the composition cursor. -/
theorem invGo_comp {cn : Nat} {m : List (ObjHandle × Size)} {l : List Seg}
    {cn2 : Nat} {m2 : List (ObjHandle × Size)}
    (h : invGo cn m l = .ok (cn2, m2)) : cn2 = compAfter cn l := by
  induction l generalizing cn m with
  | nil => simp [invGo] at h; simp [compAfter, h]
  | cons seg tl ih =>
    simp only [invGo] at h
    cases hs : invStep cn m seg with
    | error e => simp [hs] at h
    | ok p =>
      obtain ⟨cnm, mm⟩ := p
      simp only [hs] at h
      unfold invStep at hs
      cases hb : seg.body with
      | presComp pcs =>
        rw [hb] at hs
        simp at hs
        obtain ⟨rfl, rfl⟩ := hs
        simp [compAfter, hb]
        exact ih h
      | objDef ods =>
        rw [hb] at hs
        cases hl : invLookup m { comp_num := cn, obj_id := ods.id } with
        | some v => simp [hl] at hs
        | none =>
          simp [hl] at hs
          obtain ⟨rfl, rfl⟩ := hs
          simp [compAfter, hb]
          exact ih h
      | winDef wds =>
        rw [hb] at hs
        simp at hs
        obtain ⟨rfl, rfl⟩ := hs
        simp [compAfter, hb]
        exact ih h
      | palDef d =>
        rw [hb] at hs
        simp at hs
        obtain ⟨rfl, rfl⟩ := hs
        simp [compAfter, hb]
        exact ih h
      | endOfDisplaySet =>
        rw [hb] at hs
        simp at hs
        obtain ⟨rfl, rfl⟩ := hs
        simp [compAfter, hb]
        exact ih h

/-- Helper: a successful inventory scan preserves every existing entry. -/
theorem invGo_mono {cn : Nat} {m : List (ObjHandle × Size)} {l : List Seg}
    {cn2 : Nat} {m2 : List (ObjHandle × Size)} {k : ObjHandle} {v : Size}
    (h : invGo cn m l = .ok (cn2, m2)) (hk : invLookup m k = some v) :
    invLookup m2 k = some v := by
  induction l generalizing cn m with
  | nil =>
    simp [invGo] at h
    obtain ⟨rfl, rfl⟩ := h
    exact hk
  | cons seg tl ih =>
    simp only [invGo] at h
    cases hs : invStep cn m seg with
    | error e => simp [hs] at h
    | ok p =>
      obtain ⟨cnm, mm⟩ := p
      simp only [hs] at h
      unfold invStep at hs
      cases hb : seg.body with
      | presComp pcs =>
        rw [hb] at hs
        simp at hs
        obtain ⟨rfl, rfl⟩ := hs
        exact ih h hk
      | objDef ods =>
        rw [hb] at hs
        cases hl : invLookup m { comp_num := cn, obj_id := ods.id } with
        | some w => simp [hl] at hs
        | none =>
          simp [hl] at hs
          obtain ⟨rfl, rfl⟩ := hs
          refine ih h ?_
          by_cases hkh : ({ comp_num := cn, obj_id := ods.id } : ObjHandle) = k
          · rw [← hkh] at hk
            rw [hl] at hk
            cases hk
          · simp [invLookup, hkh, hk]
      | winDef wds =>
        rw [hb] at hs
        simp at hs
        obtain ⟨rfl, rfl⟩ := hs
        exact ih h hk
      | palDef d =>
        rw [hb] at hs
        simp at hs
        obtain ⟨rfl, rfl⟩ := hs
        exact ih h hk
      | endOfDisplaySet =>
        rw [hb] at hs
        simp at hs
        obtain ⟨rfl, rfl⟩ := hs
        exact ih h hk

/-- Helper: a scan of a list holding two same-id ObjectDefinition segments
under the same composition cursor never succeeds. -/
theorem invGo_dup {l2 l3 : List Seg} {s1 s2 : Seg} {od1 od2 : ObjDef}
    (cn1 : Nat) (m1 : List (ObjHandle × Size))
    (hb1 : s1.body = .objDef od1) (hb2 : s2.body = .objDef od2)
    (hid : od1.id = od2.id) (hcomp : compAfter cn1 l2 = cn1) :
    ∀ p, invGo cn1 m1 ((s1 :: l2) ++ (s2 :: l3)) ≠ .ok p := by
  intro p hok
  rw [invGo_append] at hok
  simp only [invGo] at hok
  cases hl1 : invLookup m1 { comp_num := cn1, obj_id := od1.id } with
  | some v =>
    have hstep : invStep cn1 m1 s1 = .error .duplicateObjectId := by
      simp [invStep, hb1, hl1]
    rw [hstep] at hok
    simp at hok
  | none =>
    have hstep : invStep cn1 m1 s1 = .ok (cn1,
        ({ comp_num := cn1, obj_id := od1.id },
          { width := od1.width, height := od1.height }) :: m1) := by
      simp [invStep, hb1, hl1]
    rw [hstep] at hok
    simp only [] at hok
    cases h2 : invGo cn1 (({ comp_num := cn1, obj_id := od1.id },
        ({ width := od1.width, height := od1.height } : Size)) :: m1) l2 with
    | error e => rw [h2] at hok; simp at hok
    | ok p2 =>
      obtain ⟨cn2, m2⟩ := p2
      rw [h2] at hok
      simp only [] at hok
      have hcc : cn2 = cn1 := by rw [invGo_comp h2, hcomp]
      subst hcc
      have hlook : invLookup m2 { comp_num := cn2, obj_id := od1.id }
          = some { width := od1.width, height := od1.height } :=
        invGo_mono h2 (by simp [invLookup])
      have hstep2 : invStep cn2 m2 s2 = .error .duplicateObjectId := by
        simp [invStep, hb2, ← hid, hlook]
      rw [hstep2] at hok
      simp at hok

/-- C8: building the inventory over a segment list holding two
ObjectDefinition segments with the same object id under the same current
composition id (the id declared by the most recent preceding
PresentationComposition, with l2 leaving the cursor unchanged) fails with
the fatal duplicate-object violation rather than overwriting the first
entry. -/
theorem C8_duplicate_object_id (l1 l2 l3 : List Seg) (s1 s2 : Seg)
    (od1 od2 : ObjDef)
    (hb1 : s1.body = .objDef od1) (hb2 : s2.body = .objDef od2)
    (hid : od1.id = od2.id)
    (hcomp : compAfter (compAfter 0 l1) (s1 :: l2) = compAfter 0 l1) :
    exceptOk (buildInventory (l1 ++ (s1 :: l2) ++ (s2 :: l3))) = false := by
  have hassoc : l1 ++ (s1 :: l2) ++ (s2 :: l3)
      = l1 ++ ((s1 :: l2) ++ (s2 :: l3)) := by
    simp [List.append_assoc]
  rw [hassoc]
  unfold buildInventory
  rw [invGo_append]
  cases h1 : invGo 0 [] l1 with
  | error e => simp [exceptOk]
  | ok p1 =>
    obtain ⟨cn1, m1⟩ := p1
    simp only []
    have hcomp2 : compAfter cn1 l2 = cn1 := by
      have h0 := hcomp
      rw [← invGo_comp h1] at h0
      simpa [compAfter, hb1] using h0
    cases h2 : invGo cn1 m1 ((s1 :: l2) ++ (s2 :: l3)) with
    | error e => simp [exceptOk]
    | ok p2 => exact absurd h2 (invGo_dup cn1 m1 hb1 hb2 hid hcomp2 p2)

/-- Witness for C8_duplicate_object_id: two ObjectDefinition segments with
object id 7 and no intervening PresentationComposition. -/
theorem C8_duplicate_object_id_witness :
    exceptOk (buildInventory ([] ++
      ({ pts := 0, dts := 0, body := .objDef { id := 7, width := 10, height := 20, data := [] } } :: []) ++
      ({ pts := 0, dts := 0, body := .objDef { id := 7, width := 30, height := 40, data := [] } } :: []))) = false :=
  C8_duplicate_object_id [] [] []
    { pts := 0, dts := 0, body := .objDef { id := 7, width := 10, height := 20, data := [] } }
    { pts := 0, dts := 0, body := .objDef { id := 7, width := 30, height := 40, data := [] } }
    { id := 7, width := 10, height := 20, data := [] }
    { id := 7, width := 30, height := 40, data := [] }
    rfl rfl rfl rfl

/-- Fatal errors of the transform pass: the unresolved-object expect of
src/main.rs line 201, and a u16 arithmetic panic inside a remap call. -/
inductive TransformError where
  | unresolvedObject
  | arithOverflow
deriving DecidableEq

/-- Lifts a checked remap result into the transform, discarding the
diagnostic flag; an undefined arithmetic result becomes a fatal error. -/
def liftArith : Option (Nat × Bool) → Except TransformError Nat
  | none => .error .arithOverflow
  | some (v, _) => .ok v

/-- Embedding of the per-composition-object mutation of the transform loop
(src/main.rs lines 198-236): the object size is resolved through the
inventory (a missing entry is the fatal expect of line 201), x and y are
remapped against the current full-frame size, and an attached crop
rectangle has its x and y remapped using the rectangle's own size. -/
def procCompObj (crop_width crop_height margin : Nat)
    (inv : List (ObjHandle × Size)) (cn : Nat) (full : Size)
    (co : CompObj) : Except TransformError CompObj :=
  match invLookup inv { comp_num := cn, obj_id := co.obj_id } with
  | none => .error .unresolvedObject
  | some obj_size =>
    match liftArith (cropped_object_offset full.width crop_width
        obj_size.width co.x margin) with
    | .error e => .error e
    | .ok x2 =>
    match liftArith (cropped_object_offset full.height crop_height
        obj_size.height co.y margin) with
    | .error e => .error e
    | .ok y2 =>
    match co.crop with
    | none => .ok { co with x := x2, y := y2 }
    | some cr =>
      match liftArith (cropped_object_offset full.width crop_width
          cr.width cr.x margin) with
      | .error e => .error e
      | .ok cx2 =>
      match liftArith (cropped_object_offset full.height crop_height
          cr.height cr.y margin) with
      | .error e => .error e
      | .ok cy2 =>
        .ok { co with
              x := x2
              y := y2
              crop := some { cr with x := cx2, y := cy2 } }

/-- Applies a fallible function to every element, stopping at the first
error (the in-place mutation loops of src/main.rs). -/
def mapExcept (f : α → Except ε β) : List α → Except ε (List β)
  | [] => .ok []
  | a :: as =>
    match f a with
    | .error e => .error e
    | .ok b =>
      match mapExcept f as with
      | .error e => .error e
      | .ok bs => .ok (b :: bs)

/-- Embedding of the PresentationComposition branch of the transform loop
(src/main.rs lines 188-240): every composition object is remapped against
the width and height the segment declared, and only then are the declared
width and height overwritten with the crop targets. -/
def procPresComp (crop_width crop_height margin : Nat)
    (inv : List (ObjHandle × Size)) (pcs : PresComp) :
    Except TransformError PresComp :=
  match mapExcept (procCompObj crop_width crop_height margin inv pcs.comp_num
      { width := pcs.width, height := pcs.height }) pcs.comp_objs with
  | .error e => .error e
  | .ok objs2 =>
    .ok { pcs with
          width := crop_width
          height := crop_height
          comp_objs := objs2 }

/-- Embedding of the WindowDefinition branch of the transform loop
(src/main.rs lines 241-258): each window's x and y are remapped against the
current full-frame size using the window's own width and height. -/
def procWinDef (crop_width crop_height margin : Nat) (full : Size)
    (wd : WinDef) : Except TransformError WinDef :=
  match liftArith (cropped_object_offset full.width crop_width
      wd.width wd.x margin) with
  | .error e => .error e
  | .ok x2 =>
  match liftArith (cropped_object_offset full.height crop_height
      wd.height wd.y margin) with
  | .error e => .error e
  | .ok y2 => .ok { wd with x := x2, y := y2 }

/-- Embedding of the transform loop (src/main.rs lines 186-261), carrying
the composition cursor and the current full-frame size; a
PresentationComposition updates both cursors before its objects are
remapped, and all other segment kinds leave them unchanged. -/
def transformGo (crop_width crop_height margin : Nat)
    (inv : List (ObjHandle × Size)) :
    Nat → Size → List Seg → Except TransformError (List Seg)
  | _, _, [] => .ok []
  | cn, full, seg :: rest =>
    match seg.body with
    | .presComp pcs =>
      match procPresComp crop_width crop_height margin inv pcs with
      | .error e => .error e
      | .ok pcs2 =>
        match transformGo crop_width crop_height margin inv pcs.comp_num
            { width := pcs.width, height := pcs.height } rest with
        | .error e => .error e
        | .ok rest2 => .ok ({ seg with body := .presComp pcs2 } :: rest2)
    | .winDef wds =>
      match mapExcept (procWinDef crop_width crop_height margin full) wds with
      | .error e => .error e
      | .ok wds2 =>
        match transformGo crop_width crop_height margin inv cn full rest with
        | .error e => .error e
        | .ok rest2 => .ok ({ seg with body := .winDef wds2 } :: rest2)
    | _ =>
      match transformGo crop_width crop_height margin inv cn full rest with
      | .error e => .error e
      | .ok rest2 => .ok (seg :: rest2)

/-- The transform pass as the pipeline runs it: the composition cursor
carries over the value left by the inventory pass (src/main.rs reuses the
same variable) and the full-frame size starts at 0 by 0. -/
def transformSegs (crop_width crop_height margin : Nat)
    (inv : List (ObjHandle × Size)) (segs : List Seg) :
    Except TransformError (List Seg) :=
  transformGo crop_width crop_height margin inv (compAfter 0 segs)
    { width := 0, height := 0 } segs

/-- Helper: a wholly successful element-wise map succeeded on every
element. -/
theorem mapExcept_ok_mem {f : α → Except ε β} {l : List α} {l2 : List β}
    (h : mapExcept f l = .ok l2) : ∀ a ∈ l, ∃ b, f a = .ok b := by
  induction l generalizing l2 with
  | nil => intro a ha; cases ha
  | cons x xs ih =>
    intro a ha
    simp only [mapExcept] at h
    cases h1 : f x with
    | error e => simp [h1] at h
    | ok b =>
      simp only [h1] at h
      cases h2 : mapExcept f xs with
      | error e => simp [h2] at h
      | ok bs =>
        rcases List.mem_cons.mp ha with rfl | ha2
        · exact ⟨b, h1⟩
        · exact ih h2 a ha2

/-- C9: when some PresentationComposition in the list contains a
CompositionObject whose (composition id, object id) pair has no inventory
entry, the transform pass fails fatally (with the unresolved-object
violation at that object, or an earlier fatal error) instead of remapping
that object — it never completes successfully, for any cursor state. -/
theorem C9_unresolved_reference (crop_width crop_height margin : Nat)
    (inv : List (ObjHandle × Size)) (cn0 : Nat) (full0 : Size)
    (segs : List Seg) (seg : Seg) (pcs : PresComp) (co : CompObj)
    (hmem : seg ∈ segs) (hb : seg.body = .presComp pcs)
    (hco : co ∈ pcs.comp_objs)
    (hun : invLookup inv { comp_num := pcs.comp_num, obj_id := co.obj_id }
      = none) :
    exceptOk (transformGo crop_width crop_height margin inv cn0 full0 segs)
      = false := by
  induction segs generalizing cn0 full0 with
  | nil => cases hmem
  | cons hd tl ih =>
    rcases List.mem_cons.mp hmem with rfl | hmem2
    · simp only [transformGo]
      rw [hb]
      have hproc : ∀ p, procPresComp crop_width crop_height margin inv pcs
          ≠ .ok p := by
        intro p hp
        unfold procPresComp at hp
        cases hm : mapExcept (procCompObj crop_width crop_height margin inv
            pcs.comp_num { width := pcs.width, height := pcs.height })
            pcs.comp_objs with
        | error e => simp [hm] at hp
        | ok objs2 =>
          obtain ⟨b, hb2⟩ := mapExcept_ok_mem hm co hco
          unfold procCompObj at hb2
          rw [hun] at hb2
          simp at hb2
      cases hpp : procPresComp crop_width crop_height margin inv pcs with
      | error e => simp [hpp, exceptOk]
      | ok p => exact absurd hpp (hproc p)
    · cases hb2 : hd.body with
      | presComp pcs2 =>
        simp only [transformGo, hb2]
        cases hpp : procPresComp crop_width crop_height margin inv pcs2 with
        | error e => simp [exceptOk]
        | ok p2 =>
          have ihh := ih pcs2.comp_num
            { width := pcs2.width, height := pcs2.height } hmem2
          cases ht : transformGo crop_width crop_height margin inv
              pcs2.comp_num { width := pcs2.width, height := pcs2.height }
              tl with
          | error e => simp [exceptOk]
          | ok r => rw [ht] at ihh; simp [exceptOk] at ihh
      | winDef wds =>
        simp only [transformGo, hb2]
        cases hw : mapExcept (procWinDef crop_width crop_height margin full0)
            wds with
        | error e => simp [exceptOk]
        | ok wds2 =>
          have ihh := ih cn0 full0 hmem2
          cases ht : transformGo crop_width crop_height margin inv cn0 full0
              tl with
          | error e => simp [exceptOk]
          | ok r => rw [ht] at ihh; simp [exceptOk] at ihh
      | objDef ods =>
        simp only [transformGo, hb2]
        have ihh := ih cn0 full0 hmem2
        cases ht : transformGo crop_width crop_height margin inv cn0 full0
            tl with
        | error e => simp [exceptOk]
        | ok r => rw [ht] at ihh; simp [exceptOk] at ihh
      | palDef d =>
        simp only [transformGo, hb2]
        have ihh := ih cn0 full0 hmem2
        cases ht : transformGo crop_width crop_height margin inv cn0 full0
            tl with
        | error e => simp [exceptOk]
        | ok r => rw [ht] at ihh; simp [exceptOk] at ihh
      | endOfDisplaySet =>
        simp only [transformGo, hb2]
        have ihh := ih cn0 full0 hmem2
        cases ht : transformGo crop_width crop_height margin inv cn0 full0
            tl with
        | error e => simp [exceptOk]
        | ok r => rw [ht] at ihh; simp [exceptOk] at ihh

/-- Witness for C9_unresolved_reference: a single PresentationComposition
referencing object id 7 under an empty inventory. -/
theorem C9_unresolved_reference_witness :
    exceptOk (transformGo 100 100 0 [] 0 { width := 0, height := 0 }
      [{ pts := 0, dts := 0, body := .presComp { comp_num := 5, width := 1920, height := 1080, state := 0, comp_objs := [{ obj_id := 7, win_id := 0, x := 10, y := 10, crop := none }] } }]) = false :=
  C9_unresolved_reference 100 100 0 [] 0 { width := 0, height := 0 }
    [{ pts := 0, dts := 0, body := .presComp { comp_num := 5, width := 1920, height := 1080, state := 0, comp_objs := [{ obj_id := 7, win_id := 0, x := 10, y := 10, crop := none }] } }]
    { pts := 0, dts := 0, body := .presComp { comp_num := 5, width := 1920, height := 1080, state := 0, comp_objs := [{ obj_id := 7, win_id := 0, x := 10, y := 10, crop := none }] } }
    { comp_num := 5, width := 1920, height := 1080, state := 0, comp_objs := [{ obj_id := 7, win_id := 0, x := 10, y := 10, crop := none }] }
    { obj_id := 7, win_id := 0, x := 10, y := 10, crop := none }
    (by simp) rfl (by simp) rfl

/-- C6: when the transform processes a PresentationComposition, every
composition object is remapped (through procCompObj, which also remaps an
attached CropRect) against the full-frame width and height this segment
declared, the declared width and height are overwritten with the configured
targets only in the result, and the rest of the stream is processed with
the declared (pre-overwrite) size as the full-frame cursor. -/
theorem C6_remap_before_overwrite (crop_width crop_height margin : Nat)
    (inv : List (ObjHandle × Size)) (cn0 : Nat) (full0 : Size)
    (seg : Seg) (pcs : PresComp) (rest out : List Seg)
    (hb : seg.body = .presComp pcs)
    (h : transformGo crop_width crop_height margin inv cn0 full0 (seg :: rest)
      = .ok out) :
    ∃ pcs2 rest2,
      out = { pts := seg.pts, dts := seg.dts, body := .presComp pcs2 } :: rest2 ∧
      mapExcept (procCompObj crop_width crop_height margin inv pcs.comp_num
        { width := pcs.width, height := pcs.height }) pcs.comp_objs
        = .ok pcs2.comp_objs ∧
      pcs2.comp_num = pcs.comp_num ∧
      pcs2.state = pcs.state ∧
      pcs2.width = crop_width ∧
      pcs2.height = crop_height ∧
      transformGo crop_width crop_height margin inv pcs.comp_num
        { width := pcs.width, height := pcs.height } rest = .ok rest2 := by
  simp only [transformGo, hb] at h
  cases hpp : procPresComp crop_width crop_height margin inv pcs with
  | error e => rw [hpp] at h; simp at h
  | ok pcs2 =>
    rw [hpp] at h
    simp only [] at h
    cases ht : transformGo crop_width crop_height margin inv pcs.comp_num
        { width := pcs.width, height := pcs.height } rest with
    | error e => rw [ht] at h; simp at h
    | ok rest2 =>
      rw [ht] at h
      simp at h
      refine ⟨pcs2, rest2, by rw [← h], ?_, ?_, ?_, ?_, ?_, rfl⟩
      all_goals {
        unfold procPresComp at hpp
        cases hm : mapExcept (procCompObj crop_width crop_height margin inv
            pcs.comp_num { width := pcs.width, height := pcs.height })
            pcs.comp_objs with
        | error e => rw [hm] at hpp; simp at hpp
        | ok objs2 => rw [hm] at hpp; simp at hpp; simp [← hpp]
      }

/-- Witness for C6_remap_before_overwrite: one PresentationComposition at
full size 1920 by 1080, cropped to 1920 by 800 with margin 30; the object
keeps x 860 (no horizontal crop) and gets y 360, and the declared height
becomes 800. -/
theorem C6_remap_before_overwrite_witness :
    ∃ pcs2 rest2,
      ([{ pts := 11, dts := 22, body := .presComp { comp_num := 1, width := 1920, height := 800, state := 0, comp_objs := [{ obj_id := 7, win_id := 0, x := 860, y := 360, crop := none }] } }] : List Seg)
        = { pts := (11 : Nat), dts := (22 : Nat), body := .presComp pcs2 } :: rest2 ∧
      mapExcept (procCompObj 1920 800 30 [({ comp_num := 1, obj_id := 7 }, { width := 200, height := 100 })] 1
        { width := 1920, height := 1080 })
        [{ obj_id := 7, win_id := 0, x := 860, y := 500, crop := none }]
        = .ok pcs2.comp_objs ∧
      pcs2.comp_num = 1 ∧
      pcs2.state = 0 ∧
      pcs2.width = 1920 ∧
      pcs2.height = 800 ∧
      transformGo 1920 800 30 [({ comp_num := 1, obj_id := 7 }, { width := 200, height := 100 })] 1
        { width := 1920, height := 1080 } [] = .ok rest2 :=
  C6_remap_before_overwrite 1920 800 30
    [({ comp_num := 1, obj_id := 7 }, { width := 200, height := 100 })] 0
    { width := 0, height := 0 }
    { pts := 11, dts := 22, body := .presComp { comp_num := 1, width := 1920, height := 1080, state := 0, comp_objs := [{ obj_id := 7, win_id := 0, x := 860, y := 500, crop := none }] } }
    { comp_num := 1, width := 1920, height := 1080, state := 0, comp_objs := [{ obj_id := 7, win_id := 0, x := 860, y := 500, crop := none }] }
    []
    [{ pts := 11, dts := 22, body := .presComp { comp_num := 1, width := 1920, height := 800, state := 0, comp_objs := [{ obj_id := 7, win_id := 0, x := 860, y := 360, crop := none }] } }]
    rfl (by rfl)

/-- Shape relation on optional crop rectangles: presence and sizes agree
(only x and y may differ). -/
def cropShape : Option CropRect → Option CropRect → Prop
  | none, none => True
  | some c, some d => c.width = d.width ∧ c.height = d.height
  | _, _ => False

/-- Shape relation on composition objects: ids, window ids and crop shape
agree (only positions may differ). -/
def compObjShape (a b : CompObj) : Prop :=
  a.obj_id = b.obj_id ∧ a.win_id = b.win_id ∧ cropShape a.crop b.crop

/-- Shape relation on window records: id, width and height agree (only x
and y may differ). -/
def winShape (a b : WinDef) : Prop :=
  a.id = b.id ∧ a.width = b.width ∧ a.height = b.height

/-- Frame-effect relation of the transform on one segment: timestamps are
equal, both bodies are the same variant, PresentationComposition keeps its
composition id, state and object shapes, WindowDefinition keeps its window
shapes, and every other variant is entirely unchanged. -/
def segShape (a b : Seg) : Prop :=
  a.pts = b.pts ∧ a.dts = b.dts ∧
  match a.body, b.body with
  | .presComp p, .presComp q =>
    p.comp_num = q.comp_num ∧ p.state = q.state ∧
      List.Forall₂ compObjShape p.comp_objs q.comp_objs
  | .winDef v, .winDef w => List.Forall₂ winShape v w
  | .objDef o1, .objDef o2 => o1 = o2
  | .palDef d1, .palDef d2 => d1 = d2
  | .endOfDisplaySet, .endOfDisplaySet => True
  | _, _ => False

/-- Helper: a wholly successful element-wise map relates inputs to outputs
pointwise. -/
theorem mapExcept_forall₂ {f : α → Except ε β} {R : α → β → Prop}
    {l : List α} {l2 : List β}
    (h : mapExcept f l = .ok l2) (hf : ∀ a b, f a = .ok b → R a b) :
    List.Forall₂ R l l2 := by
  induction l generalizing l2 with
  | nil => simp [mapExcept] at h; subst h; exact List.Forall₂.nil
  | cons x xs ih =>
    simp only [mapExcept] at h
    cases h1 : f x with
    | error e => simp [h1] at h
    | ok b =>
      simp only [h1] at h
      cases h2 : mapExcept f xs with
      | error e => simp [h2] at h
      | ok bs =>
        simp only [h2] at h
        simp at h
        subst h
        exact List.Forall₂.cons (hf x b h1) (ih h2)

/-- Helper: the per-object remap keeps ids and sizes, changing only
positions. -/
theorem procCompObj_shape {crop_width crop_height margin : Nat}
    {inv : List (ObjHandle × Size)} {cn : Nat} {full : Size}
    {co co2 : CompObj}
    (h : procCompObj crop_width crop_height margin inv cn full co = .ok co2) :
    compObjShape co co2 := by
  unfold procCompObj at h
  cases h1 : invLookup inv { comp_num := cn, obj_id := co.obj_id } with
  | none => simp [h1] at h
  | some sz =>
    simp only [h1] at h
    cases h2 : liftArith (cropped_object_offset full.width crop_width
        sz.width co.x margin) with
    | error e => simp [h2] at h
    | ok x2 =>
      simp only [h2] at h
      cases h3 : liftArith (cropped_object_offset full.height crop_height
          sz.height co.y margin) with
      | error e => simp [h3] at h
      | ok y2 =>
        simp only [h3] at h
        cases hc : co.crop with
        | none =>
          rw [hc] at h
          simp at h
          subst h
          exact ⟨rfl, rfl, by simp [cropShape, hc]⟩
        | some cr =>
          rw [hc] at h
          cases h4 : liftArith (cropped_object_offset full.width crop_width
              cr.width cr.x margin) with
          | error e => simp [h4] at h
          | ok cx2 =>
            simp only [h4] at h
            cases h5 : liftArith (cropped_object_offset full.height
                crop_height cr.height cr.y margin) with
            | error e => simp [h5] at h
            | ok cy2 =>
              simp only [h5] at h
              simp at h
              subst h
              exact ⟨rfl, rfl, by simp [cropShape, hc]⟩

/-- Helper: the per-window remap keeps id and size, changing only the
position. -/
theorem procWinDef_shape {crop_width crop_height margin : Nat} {full : Size}
    {wd wd2 : WinDef}
    (h : procWinDef crop_width crop_height margin full wd = .ok wd2) :
    winShape wd wd2 := by
  unfold procWinDef at h
  cases h1 : liftArith (cropped_object_offset full.width crop_width
      wd.width wd.x margin) with
  | error e => simp [h1] at h
  | ok x2 =>
    simp only [h1] at h
    cases h2 : liftArith (cropped_object_offset full.height crop_height
        wd.height wd.y margin) with
    | error e => simp [h2] at h
    | ok y2 =>
      simp only [h2] at h
      simp at h
      subst h
      exact ⟨rfl, rfl, rfl⟩

/-- C7: a successful transform pass relates input and output segments
pointwise by segShape — timestamps are never mutated, no WindowDef,
ObjectDefinition or CropRect width or height changes, ObjectDefinition,
PaletteDefinition and EndOfDisplaySet segments are entirely unchanged, and
only positions and the PresentationComposition declared screen size may
differ. -/
theorem C7_only_positions_mutated (crop_width crop_height margin : Nat)
    (inv : List (ObjHandle × Size)) (cn0 : Nat) (full0 : Size)
    (segs out : List Seg)
    (h : transformGo crop_width crop_height margin inv cn0 full0 segs
      = .ok out) :
    List.Forall₂ segShape segs out := by
  induction segs generalizing cn0 full0 out with
  | nil =>
    simp [transformGo] at h
    subst h
    exact List.Forall₂.nil
  | cons hd tl ih =>
    cases hb : hd.body with
    | presComp pcs =>
      simp only [transformGo, hb] at h
      cases hpp : procPresComp crop_width crop_height margin inv pcs with
      | error e => simp [hpp] at h
      | ok pcs2 =>
        simp only [hpp] at h
        cases ht : transformGo crop_width crop_height margin inv pcs.comp_num
            { width := pcs.width, height := pcs.height } tl with
        | error e => simp [ht] at h
        | ok rest2 =>
          simp only [ht] at h
          simp at h
          subst h
          refine List.Forall₂.cons ⟨rfl, rfl, ?_⟩ (ih _ _ _ ht)
          simp only [hb]
          unfold procPresComp at hpp
          cases hm : mapExcept (procCompObj crop_width crop_height margin inv
              pcs.comp_num { width := pcs.width, height := pcs.height })
              pcs.comp_objs with
          | error e => simp [hm] at hpp
          | ok objs2 =>
            rw [hm] at hpp
            simp at hpp
            rw [← hpp]
            exact ⟨rfl, rfl,
              mapExcept_forall₂ hm (fun a b hab => procCompObj_shape hab)⟩
    | winDef wds =>
      simp only [transformGo, hb] at h
      cases hw : mapExcept (procWinDef crop_width crop_height margin full0)
          wds with
      | error e => simp [hw] at h
      | ok wds2 =>
        simp only [hw] at h
        cases ht : transformGo crop_width crop_height margin inv cn0 full0
            tl with
        | error e => simp [ht] at h
        | ok rest2 =>
          simp only [ht] at h
          simp at h
          subst h
          refine List.Forall₂.cons ⟨rfl, rfl, ?_⟩ (ih _ _ _ ht)
          simp only [hb]
          exact mapExcept_forall₂ hw (fun a b hab => procWinDef_shape hab)
    | objDef ods =>
      simp only [transformGo, hb] at h
      cases ht : transformGo crop_width crop_height margin inv cn0 full0
          tl with
      | error e => simp [ht] at h
      | ok rest2 =>
        simp only [ht] at h
        simp at h
        subst h
        exact List.Forall₂.cons ⟨rfl, rfl, by simp [hb]⟩ (ih _ _ _ ht)
    | palDef d =>
      simp only [transformGo, hb] at h
      cases ht : transformGo crop_width crop_height margin inv cn0 full0
          tl with
      | error e => simp [ht] at h
      | ok rest2 =>
        simp only [ht] at h
        simp at h
        subst h
        exact List.Forall₂.cons ⟨rfl, rfl, by simp [hb]⟩ (ih _ _ _ ht)
    | endOfDisplaySet =>
      simp only [transformGo, hb] at h
      cases ht : transformGo crop_width crop_height margin inv cn0 full0
          tl with
      | error e => simp [ht] at h
      | ok rest2 =>
        simp only [ht] at h
        simp at h
        subst h
        exact List.Forall₂.cons ⟨rfl, rfl, by simp [hb]⟩ (ih _ _ _ ht)

/-- Witness for C7_only_positions_mutated: a lone EndOfDisplaySet segment
passes through the transform unchanged. -/
theorem C7_only_positions_mutated_witness :
    List.Forall₂ segShape
      [{ pts := 1, dts := 2, body := .endOfDisplaySet }]
      [{ pts := 1, dts := 2, body := .endOfDisplaySet }] :=
  C7_only_positions_mutated 1920 800 30 [] 0 { width := 0, height := 0 }
    [{ pts := 1, dts := 2, body := .endOfDisplaySet }]
    [{ pts := 1, dts := 2, body := .endOfDisplaySet }]
    (by rfl)
